import Mathlib

set_option maxRecDepth 8192

/-!
# Verification of the formula-synchronization pipeline

Shallow embedding of `scripts/check_updates.py` and `scripts/update_formulas.py`.

Python strings are modelled as `String` / `List Char`; the specific regular
expressions used by the scripts are embedded as deterministic scanners that
implement `re.search` / `re.sub` semantics (leftmost match, greedy
quantifiers) for exactly those patterns.  Network and subprocess effects are
passed in as oracle parameters.  All definitions are computable and settle on
concrete inputs by `decide` / `rfl`.
-/

namespace HomebrewTap

/-! ## Python string primitives -/

/-- Python's `\s` class on ASCII text: `[ \t\n\r\f\v]`. -/
def pyIsSpace (c : Char) : Bool :=
  c = ' ' || c = '\t' || c = '\n' || c = '\r' || c = '\x0b' || c = '\x0c'

/-- Python's `\w` class on ASCII text: `[A-Za-z0-9_]`. -/
def pyIsW (c : Char) : Bool := c.isAlphanum || c = '_'

/-- The character class `[a-zA-Z0-9_-]` used by the package-name groups. -/
def isNameChar (c : Char) : Bool := c.isAlphanum || c = '_' || c = '-'

/-- Substring containment on char lists (Python's `needle in hay`). -/
def containsSub (needle : List Char) : List Char → Bool
  | [] => needle.isEmpty
  | c :: cs => needle.isPrefixOf (c :: cs) || containsSub needle cs

/-- Python's `needle in hay` on strings. -/
def pyIn (needle hay : String) : Bool := containsSub needle.data hay.data

/-- Split a char list on a separator character (Python `str.split(sep)`:
`"" ↦ [""]`, separators at the ends produce empty parts). -/
def splitOnCh (sep : Char) : List Char → List (List Char)
  | [] => [[]]
  | c :: cs =>
    if c = sep then [] :: splitOnCh sep cs
    else
      match splitOnCh sep cs with
      | [] => [[c]]
      | g :: gs => (c :: g) :: gs

/-- Join with a `'\n'` separator (inverse of `splitOnCh '\n'`). -/
def joinNL : List (List Char) → List Char
  | [] => []
  | [l] => l
  | l :: ls => l ++ '\n' :: joinNL ls

/-- Python `str.strip()` (whitespace at both ends). -/
def pystrip (l : List Char) : List Char :=
  ((l.dropWhile pyIsSpace).reverse.dropWhile pyIsSpace).reverse

/-- Python `str.split("==")`: split on non-overlapping occurrences of `==`,
scanning left to right. -/
def splitEqs : List Char → List (List Char)
  | [] => [[]]
  | '=' :: '=' :: cs => [] :: splitEqs cs
  | c :: cs =>
    match splitEqs cs with
    | [] => [[c]]
    | g :: gs => (c :: g) :: gs

/-- The char list after the first occurrence of `needle` (`none` if absent). -/
def afterFirst (needle : List Char) : List Char → Option (List Char)
  | [] => none
  | c :: cs =>
    if needle.isPrefixOf (c :: cs) then some ((c :: cs).drop needle.length)
    else afterFirst needle cs

/-- The prefix up to the first occurrence of `needle` (the whole list if absent). -/
def upToFirst (needle : List Char) : List Char → List Char
  | [] => []
  | c :: cs =>
    if needle.isPrefixOf (c :: cs) then [] else c :: upToFirst needle cs

/-- Python `s.split(needle)[1]` for a `needle` known to occur in `s`
(element between the first and second occurrence). -/
def splitPart1 (needle l : List Char) : List Char :=
  match afterFirst needle l with
  | some r => upToFirst needle r
  | none => []

/-! ## The Version Comparator (check_updates.py lines 112-120)

`packaging.version.Version` is an external library, not part of this
repository's sources.  Modelled from the spec: "parse both as
semantic versions per common dotted-numeric-with-optional-suffix convention;
`latest` is newer iff it compares strictly greater", with release components
compared numerically, zero-padded to equal length, and an optional
non-numeric final suffix component (a pre-release-style suffix compares
below the plain release). -/

/-- Modelled from the spec: a parsed semantic version — dotted numeric
release components plus an optional trailing alphanumeric suffix. -/
structure PyVersion where
  release : List Nat
  suffix : Option String
deriving DecidableEq

/-- Digits to the natural number they denote. -/
def charsToNat (l : List Char) : Nat :=
  l.foldl (fun a c => a * 10 + (c.toNat - 48)) 0

/-- Modelled from the spec: parse a dotted-numeric version with an optional
final alphanumeric suffix component; any other shape fails to parse. -/
def parseVersion (s : String) : Option PyVersion :=
  let parts := splitOnCh '.' s.data
  if parts.any (fun p => p.isEmpty) then none
  else if parts.all (fun p => p.all Char.isDigit) then
    some ⟨parts.map charsToNat, none⟩
  else
    match parts.reverse with
    | [] => none
    | last :: revInit =>
      let init := revInit.reverse
      if !init.isEmpty && init.all (fun p => p.all Char.isDigit)
          && last.all pyIsW then
        some ⟨init.map charsToNat, some (String.mk last)⟩
      else none

/-- Compare release component lists, zero-padding the shorter one. -/
def cmpRel : List Nat → List Nat → Ordering
  | [], bs => if bs.any (fun b => 0 < b) then .lt else .eq
  | a :: as, [] => if 0 < a then .gt else cmpRel as []
  | a :: as, b :: bs =>
    if a < b then .lt else if b < a then .gt else cmpRel as bs

/-- Strict lexicographic order on char lists (Python string comparison by
code points). -/
def ltChars : List Char → List Char → Bool
  | [], [] => false
  | [], _ :: _ => true
  | _ :: _, [] => false
  | a :: as, b :: bs => if a < b then true else if b < a then false else ltChars as bs

/-- Non-strict lexicographic order on char lists. -/
def leChars : List Char → List Char → Bool
  | [], _ => true
  | _ :: _, [] => false
  | a :: as, b :: bs => if a < b then true else if b < a then false else leChars as bs

/-- Python `str.lower()` on ASCII text. -/
def pyLower (l : List Char) : List Char := l.map Char.toLower

/-- Suffix ordering on a release tie: a suffixed version (pre-release style)
sorts below the plain release; two suffixes compare as strings. -/
def ltSuffix : Option String → Option String → Bool
  | none, none => false
  | some _, none => true
  | none, some _ => false
  | some s, some t => ltChars s.data t.data

/-- Strict order on parsed versions. -/
def ltV (a b : PyVersion) : Bool :=
  match cmpRel a.release b.release with
  | .lt => true
  | .gt => false
  | .eq => ltSuffix a.suffix b.suffix

/-- The comparison inside `check_formula_update` (check_updates.py lines
112-120): parse both versions; `latest` is newer iff strictly greater; if
either parse fails, newer iff the raw strings differ. -/
def isNewer (current latest : String) : Bool :=
  match parseVersion current, parseVersion latest with
  | some c, some l => ltV c l
  | _, _ => !(latest == current)

/-! ## Embedded regular-expression scanners

Each scanner implements Python `re.search` / `re.sub` semantics (leftmost
match, greedy quantifiers, `$` anchoring, non-overlapping global
substitution) for one concrete pattern of the scripts. -/

/-- Match a literal, returning the remainder. -/
def litP (pat l : List Char) : Option (List Char) :=
  if pat.isPrefixOf l then some (l.drop pat.length) else none

/-- Match `\s+` greedily, returning the matched whitespace and the remainder. -/
def wsP : List Char → Option (List Char × List Char)
  | [] => none
  | c :: cs =>
    if pyIsSpace c then some (c :: cs.takeWhile pyIsSpace, cs.dropWhile pyIsSpace)
    else none

/-- Match `([^"]+)"` greedily: the body up to the next quote (nonempty) and
the remainder after the consumed closing quote. -/
def q1 (l : List Char) : Option (List Char × List Char) :=
  let body := l.takeWhile (fun c => !(c = '"'))
  match l.dropWhile (fun c => !(c = '"')) with
  | '"' :: r => if body.isEmpty then none else some (body, r)
  | _ => none

/-- Try `class\s+(\w+)\s+<\s+Formula` at the head of the input
(check_updates.py line 43); all the character classes involved are disjoint
from their successors, so greedy maximal munch is exact. -/
def tryClassAt (l : List Char) : Option (List Char) := do
  let r1 ← litP "class".data l
  let (_, r2) ← wsP r1
  let name := r2.takeWhile pyIsW
  if name.isEmpty then none else
  let r3 := r2.dropWhile pyIsW
  let (_, r4) ← wsP r3
  let r5 ← litP "<".data r4
  let (_, r6) ← wsP r5
  let _ ← litP "Formula".data r6
  some name

/-- Embeds `re.search(r"class\s+(\w+)\s+<\s+Formula", content)`: leftmost match,
returning group 1. -/
def searchClass : List Char → Option (List Char)
  | [] => none
  | c :: cs =>
    match tryClassAt (c :: cs) with
    | some n => some n
    | none => searchClass cs

/-- Try `key\s+"([^"]+)"` at the head of the input. -/
def tryKeyQuoted (key l : List Char) : Option (List Char) := do
  let r1 ← litP key l
  let (_, r2) ← wsP r1
  let r3 ← litP ['"'] r2
  let (body, _) ← q1 r3
  some body

/-- Embeds `re.search(r'key\s+"([^"]+)"', content)` for the keys url and
version (check_updates.py lines 50 and 64): leftmost match, returning group 1. -/
def searchKeyQuoted (key : List Char) : List Char → Option (List Char)
  | [] => none
  | c :: cs =>
    match tryKeyQuoted key (c :: cs) with
    | some b => some b
    | none => searchKeyQuoted key cs

/-- Holds when `p` is a nonempty all-digit component (a `\d+` group). -/
def dig1 (p : List Char) : Bool := !p.isEmpty && p.all Char.isDigit

/-- Holds when `p` is a nonempty all-word component (a `\w+` group). -/
def w1 (p : List Char) : Bool := !p.isEmpty && p.all pyIsW

/-- Full match of `\d+\.\d+(?:\.\d+)?(?:\.\w+)?` against a dot-split
component list: two mandatory numeric components, an optional third numeric
component and an optional final word component. -/
def vpartsOK : List (List Char) → Bool
  | [p1, p2] => dig1 p1 && dig1 p2
  | [p1, p2, p3] => dig1 p1 && dig1 p2 && w1 p3
  | [p1, p2, p3, p4] => dig1 p1 && dig1 p2 && dig1 p3 && w1 p4
  | _ => false

/-- Full match of the version group `(\d+\.\d+(?:\.\d+)?(?:\.\w+)?)` of
check_updates.py line 57 against a whole string. -/
def versionFull (s : List Char) : Bool := vpartsOK (splitOnCh '.' s)

/-- Backtracking over the name/version split of
`([a-zA-Z0-9_-]+)-(GROUP2)` inside `cs`: candidate name lengths are tried
from `k` downwards (regex greediness of the name group); a candidate of
length `j` requires a hyphen at index `j` and `group2Full` on the rest. -/
def nameVerAux (group2Full : List Char → Bool) (cs : List Char) :
    Nat → Option (List Char × List Char)
  | 0 => none
  | k + 1 =>
    if cs[k + 1]? = some '-' && group2Full (cs.drop (k + 2)) then
      some (cs.take (k + 1), cs.drop (k + 2))
    else nameVerAux group2Full cs k

/-- Try the name/version split with the name group anchored at the head of
`cs` (which follows a literal `/`) and group 2 extending to the end of `cs`. -/
def nameVerTry (group2Full : List Char → Bool) (cs : List Char) :
    Option (List Char × List Char) :=
  nameVerAux group2Full cs (cs.takeWhile isNameChar).length

/-- Scan for the leftmost `/` at which the name/version split succeeds. -/
def nameVerScan (group2Full : List Char → Bool) : List Char → Option (List Char × List Char)
  | [] => none
  | c :: cs =>
    if c = '/' then
      match nameVerTry group2Full cs with
      | some nv => some nv
      | none => nameVerScan group2Full cs
    else nameVerScan group2Full cs

/-- Embeds `re.search(r"/([a-zA-Z0-9_-]+)-(\d+\.\d+(?:\.\d+)?(?:\.\w+)?)\.tar\.gz$", url)`
(check_updates.py line 57): the `$`-anchored literal `.tar.gz` forces the
groups to partition the prefix, and a match can only start at a `/` whose
tail is slash-free, so leftmost scanning over `/` positions with a greedy
name split is exact. -/
def pypiMatch (u : List Char) : Option (List Char × List Char) :=
  if ".tar.gz".data.isSuffixOf u then
    nameVerScan versionFull (u.take (u.length - 7))
  else none

/-- Full match of `[\d.]+` against a whole string. -/
def digitsDots1 (s : List Char) : Bool :=
  !s.isEmpty && s.all (fun c => c.isDigit || c = '.')

/-- Embeds `re.search(r"/([a-zA-Z0-9_-]+)-[\d.]+\.tar\.gz$", tarball_url)`
(update_formulas.py line 129), returning group 1. -/
def pkgNameMatch (u : List Char) : Option (List Char) :=
  if ".tar.gz".data.isSuffixOf u then
    match nameVerScan digitsDots1 (u.take (u.length - 7)) with
    | some (n, _) => some n
    | none => none
  else none

/-! ## The Recipe Extractor (check_updates.py lines 38-75) -/

/-- The structured record extracted from a recipe file (check_updates.py
lines 18-24); the `file_path` field is the input path passed through
unchanged and is omitted from the text-level model. -/
structure FormulaInfo where
  name : String
  version : String
  pypi_name : String
deriving DecidableEq

/-- Normalization `group(1).replace("_", "-").lower()` of check_updates.py line 59. -/
def normalizePypi (n : List Char) : String :=
  String.mk (pyLower (n.map (fun c => if c = '_' then '-' else c)))

/-- Embeds `extract_formula_info` (check_updates.py lines 38-75) on the file's
text: class declaration, quoted url, name/version from the canonical
filename convention, with the declared-name / version-literal fallback. -/
def extract_formula_info (content : String) : Option FormulaInfo :=
  match searchClass content.data with
  | none => none
  | some cls =>
    let formula_name := String.mk (pyLower cls)
    match searchKeyQuoted "url".data content.data with
    | none => none
    | some url =>
      match pypiMatch url with
      | some (n, v) => some ⟨formula_name, String.mk v, normalizePypi n⟩
      | none =>
        match searchKeyQuoted "version".data content.data with
        | some v => some ⟨formula_name, String.mk v, formula_name⟩
        | none => none

/-! ## Global substitution engine

`re.sub` scans left to right; at each position it tries the pattern, and on
a match emits the replacement and resumes after the matched text
(non-overlapping).  The matcher `tryf` returns the full replacement text and
the remainder after the match.  Fuel is the input length: every step either
consumes one unmatched character or a nonempty match, so the fuel never runs
out for the matchers used here (all of which consume at least one char). -/

def gsubF (tryf : List Char → Option (List Char × List Char)) :
    Nat → List Char → List Char
  | 0, l => l
  | _ + 1, [] => []
  | k + 1, c :: cs =>
    match tryf (c :: cs) with
    | some (g, r) => g ++ gsubF tryf k r
    | none => c :: gsubF tryf k cs

/-- Embeds `re.sub(pattern, repl, text)` for a matcher that consumes at least one
character per match. -/
def gsub (tryf : List Char → Option (List Char × List Char)) (l : List Char) :
    List Char :=
  gsubF tryf l.length l

/-! ## The Recipe Mutator (update_formulas.py lines 101-206) -/

/-- One match of
`(url\s+"https://files\.pythonhosted\.org/packages/)[^"]+(")`
(update_formulas.py lines 136-140) at the head of the input, returning the
replacement `\g<1>{suffix}\2` and the remainder. -/
def tryPass1 (suffix l : List Char) : Option (List Char × List Char) := do
  let r1 ← litP "url".data l
  let (ws, r2) ← wsP r1
  let r3 ← litP "\"https://files.pythonhosted.org/packages/".data r2
  let (_, r4) ← q1 r3
  some ("url".data ++ ws ++ "\"https://files.pythonhosted.org/packages/".data
    ++ suffix ++ ['"'], r4)

/-- One match of `(url\s+")[^"]+(\.tar\.gz")` (update_formulas.py lines
144-148) at the head of the input: the quoted body must end in `.tar.gz`
with at least one character before it; the replacement is
`\g<1>{tarball_url}\2`. -/
def tryPass2 (tU l : List Char) : Option (List Char × List Char) := do
  let r1 ← litP "url".data l
  let (ws, r2) ← wsP r1
  let r3 ← litP ['"'] r2
  let (body, r4) ← q1 r3
  if ".tar.gz".data.isSuffixOf body && decide (7 < body.length) then
    some ("url".data ++ ws ++ '"' :: tU ++ ".tar.gz\"".data, r4)
  else none

/-- State of the line scanner of update_formulas.py lines 152-172: the
previous original line (`lines[i-1]`), `url_found` and `in_main_section`. -/
structure ScanState where
  prev : Option (List Char)
  urlFound : Bool
  inMain : Bool

/-- One iteration of the `for i, line in enumerate(lines)` loop
(update_formulas.py lines 157-172).  Returns the emitted line, the next
state, and whether this iteration substituted a checksum line.  Note the
guard `"resource" not in lines[max(0, i - 1) : i]` is a list-membership
test: it only skips a url line whose previous line is exactly `resource`. -/
def shaStep (tU sha : String) (st : ScanState) (line : List Char) :
    List Char × ScanState × Bool :=
  if containsSub "url ".data line && !(st.prev == some "resource".data) then
    ("  url \"".data ++ tU.data ++ ['"'], ⟨some line, true, st.inMain⟩, false)
  else if st.urlFound && containsSub "sha256".data line && st.inMain then
    ("  sha256 \"".data ++ sha.data ++ ['"'], ⟨some line, false, false⟩, true)
  else
    (line, ⟨some line, st.urlFound,
      st.inMain && !(containsSub "resource ".data line)⟩, false)

/-- The emitted lines of the scanner loop. -/
def shaScan (tU sha : String) (st : ScanState) : List (List Char) → List (List Char)
  | [] => []
  | l :: ls => (shaStep tU sha st l).1 :: shaScan tU sha (shaStep tU sha st l).2.1 ls

/-- How many checksum substitutions the scanner loop performs. -/
def shaCount (tU sha : String) (st : ScanState) : List (List Char) → Nat
  | [] => 0
  | l :: ls =>
    (if (shaStep tU sha st l).2.2 then 1 else 0)
      + shaCount tU sha (shaStep tU sha st l).2.1 ls

/-- The whole checksum pass (update_formulas.py lines 152-174): split on
newlines, scan with `url_found = False`, `in_main_section = True`, rejoin. -/
def shaPass (tU sha : String) (l : List Char) : List Char :=
  joinNL (shaScan tU sha ⟨none, false, true⟩ (splitOnCh '\n' l))

/-- One match of
`\n  resource "[^"]+" do\n    url "[^"]+"\n    sha256 "[^"]+"\n  end`
(update_formulas.py lines 183-187) at the head of the input; the
replacement is empty. -/
def tryDelRes (l : List Char) : Option (List Char × List Char) := do
  let r1 ← litP "\n  resource \"".data l
  let (_, r2) ← q1 r1
  let r3 ← litP " do\n    url \"".data r2
  let (_, r4) ← q1 r3
  let r5 ← litP "\n    sha256 \"".data r4
  let (_, r6) ← q1 r5
  let r7 ← litP "\n  end".data r6
  some ([], r7)

/-- One match of `(\n  def install)` (update_formulas.py lines 199-203) at
the head of the input; the replacement is `\n\n{resources_text}\n\1`. -/
def tryDefInstall (rt l : List Char) : Option (List Char × List Char) := do
  let r ← litP "\n  def install".data l
  some ("\n\n".data ++ rt ++ '\n' :: "\n  def install".data, r)

/-- Embeds `generate_resource_block` (update_formulas.py lines 101-115); the
Index Client call `get_tarball_info` is the oracle `tb`. -/
def generate_resource_block (tb : String → String → Option (String × String))
    (package_name version : String) : Option String :=
  match tb package_name version with
  | none => none
  | some (url, sha) =>
    some ("  resource \"" ++
      String.mk ((pyLower package_name.data).map (fun c => if c = '_' then '-' else c)) ++
      "\" do\n    url \"" ++ url ++ "\"\n    sha256 \"" ++ sha ++ "\"\n  end")

/-- The key relation of `sorted(deps, key=lambda x: x[0].lower())`
(update_formulas.py line 191). -/
def depLE (a b : String × String) : Prop :=
  leChars (pyLower a.1.data) (pyLower b.1.data) = true

instance : DecidableRel depLE := fun _ _ => instDecidableEqBool _ _

/-- Transitivity of the sort-key order (used by the sortedness lemma). -/
instance : IsTrans (String × String) depLE := by
  constructor
  have key : ∀ a b c : List Char,
      leChars a b = true → leChars b c = true → leChars a c = true := by
    intro a
    induction a with
    | nil => intro b c _ _; rfl
    | cons x xs ih =>
      intro b c hab hbc
      cases b with
      | nil => simp [leChars] at hab
      | cons y ys =>
        cases c with
        | nil => simp [leChars] at hbc
        | cons z zs =>
          unfold leChars at hab hbc ⊢
          rcases lt_trichotomy x y with hxy | hxy | hxy
          · rcases lt_trichotomy y z with hyz | hyz | hyz
            · rw [if_pos (lt_trans hxy hyz)]
            · subst hyz; rw [if_pos hxy]
            · rw [if_neg (lt_asymm hyz), if_pos hyz] at hbc; exact Bool.noConfusion hbc
          · subst hxy
            rw [if_neg (lt_irrefl x), if_neg (lt_irrefl x)] at hab
            rcases lt_trichotomy x z with hxz | hxz | hxz
            · rw [if_pos hxz]
            · subst hxz
              rw [if_neg (lt_irrefl x), if_neg (lt_irrefl x)] at hbc ⊢
              exact ih ys zs hab hbc
            · rw [if_neg (lt_asymm hxz), if_pos hxz] at hbc; exact Bool.noConfusion hbc
          · rw [if_neg (lt_asymm hxy), if_pos hxy] at hab; exact Bool.noConfusion hab
  intro a b c hab hbc
  exact key _ _ _ hab hbc

/-- Totality of the sort-key order (used by the sortedness lemma). -/
instance : IsTotal (String × String) depLE := by
  constructor
  have key : ∀ a b : List Char, leChars a b = true ∨ leChars b a = true := by
    intro a
    induction a with
    | nil => intro b; left; rfl
    | cons x xs ih =>
      intro b
      cases b with
      | nil => right; rfl
      | cons y ys =>
        unfold leChars
        rcases lt_trichotomy x y with h | h | h
        · left; rw [if_pos h]
        · subst h
          simp only [lt_self_iff_false, if_false]
          exact ih ys
        · right; rw [if_pos h]
  intro a b
  exact key _ _

/-- Python `sorted(deps, key=lambda x: x[0].lower())`: Python's sort is
stable, and a stable sort's output is unique, so the structural (and
equally stable) insertion sort models it exactly. -/
def sortDeps (deps : List (String × String)) : List (String × String) :=
  List.insertionSort depLE deps

/-- The generated resource blocks, in sorted order, skipping pins whose
artifact resolution failed (update_formulas.py lines 190-195). -/
def resourceBlocks (tb : String → String → Option (String × String))
    (deps : List (String × String)) : List String :=
  (sortDeps deps).filterMap (fun p => generate_resource_block tb p.1 p.2)

/-- The dependency-block pass (update_formulas.py lines 181-203): delete
matching resource blocks, then splice the joined new blocks in front of
every `\n  def install`. -/
def resourcePass (tb : String → String → Option (String × String))
    (deps : List (String × String)) (l : List Char) : List Char :=
  let afterDel := gsub tryDelRes l
  let rt := (String.intercalate "\n\n" (resourceBlocks tb deps)).data
  gsub (tryDefInstall rt) afterDel

/-- Outcome of one `update_formula` call: `failed` is `return False` (no
write), `updated c` is `write_text(c)` followed by `return True`, and
`crash` is an uncaught `IndexError` from `tarball_url.split("packages/")[1]`
when the tarball URL lacks `packages/` (the f-string replacement on line
138 is evaluated before `re.sub` runs). -/
inductive UpdateResult where
  | crash : UpdateResult
  | failed : UpdateResult
  | updated : String → UpdateResult
deriving DecidableEq

/-- Embeds `update_formula` (update_formulas.py lines 118-206) as a function of
the file's text.  `tb` is the Index Client oracle used by
`generate_resource_block`; `deps` is the result of the
`get_package_dependencies(package_name, new_version)` call on line 179
(subprocess oracle); the file write is the `updated` payload. -/
def update_formula (tb : String → String → Option (String × String))
    (deps : List (String × String)) (content : String)
    (tarball_url sha256 : String) (update_resources : Bool) : UpdateResult :=
  match pkgNameMatch tarball_url.data with
  | none => .failed
  | some _ =>
    if pyIn "packages/" tarball_url then
      let suffix := splitPart1 "packages/".data tarball_url.data
      let c1 := gsub (tryPass1 suffix) content.data
      let c2 := if containsSub tarball_url.data c1 then c1
        else gsub (tryPass2 tarball_url.data) c1
      let c3 := shaPass tarball_url sha256 c2
      let c4 := if update_resources && !deps.isEmpty then resourcePass tb deps c3
        else c3
      .updated (String.mk c4)
    else .crash

/-- Bool observer: does the text produced by a successful update contain
`needle`? -/
def resultContains (needle : String) : UpdateResult → Bool
  | .updated c => pyIn needle c
  | _ => false

/-! ## The Dependency Resolver (update_formulas.py lines 52-98) -/

/-- Outcome of a Python computation: a value, or an uncaught exception. -/
inductive PyOutcome (α : Type) where
  | ok : α → PyOutcome α
  | exn : PyOutcome α
deriving DecidableEq

/-- Result of one `subprocess.run(..., capture_output=True)` call:
`capture_output` never raises on a nonzero exit, so the outcome carries the
return code and captured stdout. -/
structure Subproc where
  returncode : Int
  stdout : String
deriving DecidableEq

/-- The skip set of update_formulas.py line 89: pip, setuptools, wheel, and
the normalized target package name. -/
def skipPackages (package_name : String) : List String :=
  ["pip", "setuptools", "wheel",
    String.mk ((pyLower package_name.data).map (fun c => if c = '-' then '_' else c))]

/-- The `pip freeze` parsing loop (update_formulas.py lines 88-96): lines
containing `==` are unpacked by `line.split("==")`; a line splitting into
anything but two parts raises `ValueError` (too many values to unpack). -/
def parseFreeze (package_name : String) : List (List Char) → PyOutcome (List (String × String))
  | [] => .ok []
  | line :: rest =>
    if containsSub "==".data line then
      match splitEqs line with
      | [n, v] =>
        match parseFreeze package_name rest with
        | .ok ds =>
          .ok (if (skipPackages package_name).contains
                (String.mk ((pyLower n).map (fun c => if c = '-' then '_' else c)))
              then ds else (String.mk n, String.mk v) :: ds)
        | .exn => .exn
      | _ => .exn
    else parseFreeze package_name rest

/-- The body of the `with tempfile.TemporaryDirectory()` block
(update_formulas.py lines 55-98): venv creation, install, freeze,
parse — each subprocess outcome is an oracle. -/
def depsBody (package_name : String) (venv install freeze : PyOutcome Subproc) :
    PyOutcome (List (String × String)) :=
  match venv with
  | .exn => .exn
  | .ok v =>
    if v.returncode ≠ 0 then .ok []
    else
      match install with
      | .exn => .exn
      | .ok i =>
        if i.returncode ≠ 0 then .ok []
        else
          match freeze with
          | .exn => .exn
          | .ok f =>
            if f.returncode ≠ 0 then .ok []
            else parseFreeze package_name (splitOnCh '\n' (pystrip f.stdout.data))

/-- Modelled from the spec: `tempfile.TemporaryDirectory` used as a context
manager ("scoped acquisition with guaranteed release") removes the
directory on every exit path, normal or exceptional; the Bool records that
the removal happened. -/
def withTempDir {α : Type} (body : PyOutcome α) : PyOutcome α × Bool :=
  (body, true)

/-- Embeds `get_package_dependencies` (update_formulas.py lines 52-98) over the
three subprocess oracles: the returned outcome plus whether the disposable
environment directory was removed. -/
def get_package_dependencies (package_name : String)
    (venv install freeze : PyOutcome Subproc) :
    PyOutcome (List (String × String)) × Bool :=
  withTempDir (depsBody package_name venv install freeze)

/-! ## Concrete fixtures for the counterexample / failing-input theorems -/

/-- A recipe with a primary url/sha256 pair, one sub-resource block in the
exact canonical layout of the deletion pattern, and an install block. -/
def recipeA : String :=
  "class Foo < Formula\n  desc \"d\"\n  url \"https://files.pythonhosted.org/packages/aa/foo-1.0.0.tar.gz\"\n  sha256 \"OLDPRIMARY\"\n\n  resource \"bar\" do\n    url \"https://files.pythonhosted.org/packages/bb/bar-2.0.0.tar.gz\"\n    sha256 \"BARSHA\"\n  end\n\n  def install\n  end\nend\n"

/-- The new primary tarball URL used against `recipeA`. -/
def tarballA : String := "https://files.pythonhosted.org/packages/cc/foo-1.1.0.tar.gz"

/-- An Index Client oracle with no artifacts. -/
def tbNone : String → String → Option (String × String) := fun _ _ => none

/-- An Index Client oracle knowing the idna 3.4 sdist. -/
def tbIdna : String → String → Option (String × String) := fun n v =>
  if n == "idna" && v == "3.4" then
    some ("https://files.pythonhosted.org/packages/xx/idna-3.4.tar.gz", "IDNASHA")
  else none

/-- What `update_formula` produces from `recipeA` with resources off:
the sub-resource url line has been rewritten (and re-indented) to the
primary tarball url. -/
def mutatedA : String :=
  "class Foo < Formula\n  desc \"d\"\n  url \"https://files.pythonhosted.org/packages/cc/foo-1.1.0.tar.gz\"\n  sha256 \"NEWSHA\"\n\n  resource \"bar\" do\n  url \"https://files.pythonhosted.org/packages/cc/foo-1.1.0.tar.gz\"\n    sha256 \"BARSHA\"\n  end\n\n  def install\n  end\nend\n"

/-- What `update_formula` produces from `recipeA` with resources on and the
single pin `idna 3.4`: the stale `bar` block survives (mangled) next to the
freshly inserted `idna` block. -/
def mutatedA2 : String :=
  "class Foo < Formula\n  desc \"d\"\n  url \"https://files.pythonhosted.org/packages/cc/foo-1.1.0.tar.gz\"\n  sha256 \"NEWSHA\"\n\n  resource \"bar\" do\n  url \"https://files.pythonhosted.org/packages/cc/foo-1.1.0.tar.gz\"\n    sha256 \"BARSHA\"\n  end\n\n\n  resource \"idna\" do\n    url \"https://files.pythonhosted.org/packages/xx/idna-3.4.tar.gz\"\n    sha256 \"IDNASHA\"\n  end\n\n  def install\n  end\nend\n"

/-- A recipe with no url declaration at all, so neither primary-URL pattern
can match. -/
def recipeNoUrl : String := "class Foo < Formula\n  license \"MIT\"\nend\n"

/-- A recipe whose url filename has a one-component version, which the
canonical filename pattern (two mandatory numeric components) rejects. -/
def recipeOneComp : String :=
  "class Requestz < Formula\n  url \"https://files.pythonhosted.org/packages/ab/requests-2.tar.gz\"\n  version \"9.9\"\nend\n"

/-- A recipe whose url is not a canonical sdist filename, exercising the
declared-name / version-literal fallback. -/
def recipeFallback : String :=
  "class Foo < Formula\n  url \"https://example.com/foo.zip\"\n  version \"1.2rc1\"\nend\n"

/-- A recipe for the url-derivation witness. -/
def recipeRequests : String :=
  "class Requests < Formula\n  desc \"d\"\n  url \"https://files.pythonhosted.org/packages/a1/b2/requests-2.31.0.tar.gz\"\n  sha256 \"h\"\nend\n"

/-- An Index Client oracle knowing the requests 2.31.0 and idna 3.4 sdists. -/
def tbTwo : String → String → Option (String × String) := fun n v =>
  if n == "requests" && v == "2.31.0" then
    some ("https://files.pythonhosted.org/packages/rr/requests-2.31.0.tar.gz", "RSHA")
  else if n == "idna" && v == "3.4" then
    some ("https://files.pythonhosted.org/packages/xx/idna-3.4.tar.gz", "IDNASHA")
  else none

/-- First line of the C9 counterexample: it contains both `url ` and a
resource declaration, so the url branch consumes it and the
`in_main_section` flag is never cleared. -/
def lineUrlRes : List Char := "  url \"x\" ; resource \"dep\" do".data

/-- Second line of the C9 counterexample: a checksum line. -/
def lineSha : List Char := "  sha256 \"OLD\"".data

/-! # Theorems -/

/-! Concrete sanity checks of the embedding. -/

example : isNewer "1.2.0" "1.3.0" = true := by decide
example : isNewer "2.0" "1.9.9" = false := by decide
example : isNewer "1.0" "1.0" = false := by decide
example : isNewer "2.0" "2.0.0" = false := by decide
example : parseVersion "1.2rc1" = some ⟨[1], some "2rc1"⟩ := by decide
example : parseVersion "1.2.3b" = some ⟨[1, 2], some "3b"⟩ := by decide
example : parseVersion "v1.2" = none := by decide
example : isNewer "abc" "abd" = true := by decide
example : pypiMatch "https://files.pythonhosted.org/packages/a1/b2/requests-2.31.0.tar.gz".data
    = some ("requests".data, "2.31.0".data) := by decide
example : pypiMatch "https://x/foo-2.tar.gz".data = none := by decide
example : pypiMatch "https://x/a-b-1.2.tar.gz".data = some ("a-b".data, "1.2".data) := by decide
example : pkgNameMatch "https://files.pythonhosted.org/packages/cc/foo-1.1.0.tar.gz".data
    = some "foo".data := by decide
example : pkgNameMatch "https://x/y.zip".data = none := by decide
example : extract_formula_info
    "class Requests < Formula\n  desc \"d\"\n  url \"https://files.pythonhosted.org/packages/a1/requests-2.31.0.tar.gz\"\n  sha256 \"h\"\nend\n"
    = some ⟨"requests", "2.31.0", "requests"⟩ := by decide
example : extract_formula_info "no recipe here" = none := by decide
example : get_package_dependencies "requests" (.ok ⟨1, ""⟩) (.ok ⟨0, ""⟩) (.ok ⟨0, ""⟩)
    = (.ok [], true) := by decide
example : get_package_dependencies "requests" (.ok ⟨0, ""⟩) (.ok ⟨1, "boom"⟩) (.ok ⟨0, ""⟩)
    = (.ok [], true) := by decide
example : get_package_dependencies "requests" (.ok ⟨0, ""⟩) (.ok ⟨0, ""⟩)
      (.ok ⟨0, "certifi==2023.7.22\npip==23.0\nrequests==2.31.0\n"⟩)
    = (.ok [("certifi", "2023.7.22")], true) := by decide
example : get_package_dependencies "requests" (.ok ⟨0, ""⟩) .exn (.ok ⟨0, ""⟩)
    = (.exn, true) := by decide
example : get_package_dependencies "requests" (.ok ⟨0, ""⟩) (.ok ⟨0, ""⟩)
      (.ok ⟨0, "a==1==2"⟩) = (.exn, true) := by decide

/-! ## C4 — the Version Comparator -/

theorem cmpRel_self (r : List Nat) : cmpRel r r = .eq := by
  induction r with
  | nil => simp [cmpRel]
  | cons a as ih => simp [cmpRel, Nat.lt_irrefl, ih]

theorem ltChars_self (l : List Char) : ltChars l l = false := by
  induction l with
  | nil => rfl
  | cons a as ih => simp [ltChars, lt_irrefl, ih]

theorem ltSuffix_self (o : Option String) : ltSuffix o o = false := by
  cases o with
  | none => rfl
  | some s => simp [ltSuffix, ltChars_self]

theorem ltV_self (x : PyVersion) : ltV x x = false := by
  unfold ltV
  rw [cmpRel_self]
  exact ltSuffix_self x.suffix

/-- C4: for every version string that parses, `isNewer v v` is false;
`isNewer "1.2.0" "1.3.0"` is true and `isNewer "2.0" "1.9.9"` is false;
and when either string fails to parse, the candidate is newer exactly when
the raw strings differ. -/
theorem c4_isNewer_spec :
    (∀ v : String, (parseVersion v).isSome → isNewer v v = false)
    ∧ isNewer "1.2.0" "1.3.0" = true
    ∧ isNewer "2.0" "1.9.9" = false
    ∧ (∀ a b : String, parseVersion a = none ∨ parseVersion b = none →
        isNewer a b = !(b == a)) := by
  refine ⟨?_, by decide, by decide, ?_⟩
  · intro v h
    unfold isNewer
    cases hp : parseVersion v with
    | none => rw [hp] at h; exact absurd h (by simp)
    | some x => exact ltV_self x
  · intro a b h
    unfold isNewer
    cases hpa : parseVersion a with
    | none => cases parseVersion b <;> rfl
    | some x =>
      cases hpb : parseVersion b with
      | none => rfl
      | some y => rw [hpa, hpb] at h; simp at h

/-- Witness for C4 at concrete inputs. -/
theorem c4_isNewer_spec_witness :
    isNewer "3.1.4" "3.1.4" = false ∧ isNewer "abc" "abd" = !(("abd" : String) == "abc") :=
  ⟨c4_isNewer_spec.1 "3.1.4" (by decide),
   c4_isNewer_spec.2.2.2 "abc" "abd" (Or.inl (by decide))⟩

/-! ## C10 — empty dependency set means the dependency pass is skipped -/

/-- C10: when regeneration is requested but the resolved dependency set is
empty, `update_formula` behaves exactly as if regeneration were off — no
sub-resource block is deleted and none is inserted. -/
theorem c10_empty_deps_identity
    (tb : String → String → Option (String × String)) (content : String)
    (tU sh : String) :
    update_formula tb [] content tU sh true = update_formula tb [] content tU sh false := by
  unfold update_formula
  cases pkgNameMatch tU.data <;> simp

/-! ## C2 — when `update_formula` reports failure -/

/-- C2 counterexample: on a recipe whose primary-URL region cannot be
located by either pattern (it has no `url` text at all), `update_formula`
does not report failure: it still writes and returns success, with the
content unchanged. -/
theorem c2_counterexample :
    pyIn "url" recipeNoUrl = false
    ∧ update_formula tbNone [] recipeNoUrl tarballA "NEWSHA" false
        = .updated recipeNoUrl := by
  constructor
  · decide
  · decide

/-- C2 (amended): `update_formula` reports failure (returns `False`
without writing) exactly when the package-name pattern
`/([a-zA-Z0-9_-]+)-[\d.]+\.tar\.gz$` fails against the tarball URL; the
locatability of the primary-URL region in the recipe text plays no role. -/
theorem c2_failed_iff_bad_tarball
    (tb : String → String → Option (String × String))
    (deps : List (String × String)) (content tU sh : String)
    (ur : Bool) :
    update_formula tb deps content tU sh ur = .failed
      ↔ pkgNameMatch tU.data = none := by
  unfold update_formula
  cases hm : pkgNameMatch tU.data with
  | none => simp
  | some n =>
    by_cases hp : pyIn "packages/" tU <;> simp [hp]

/-! ## C6 — the Dependency Resolver is best-effort with guaranteed teardown -/

/-- C6: if creating the disposable environment fails (nonzero return code)
or installing the pinned package fails, the resolver returns an empty list
rather than raising; and on every exit path — success, either failure
branch, or an exception raised by any subprocess or by enumeration — the
disposable environment directory is removed. -/
theorem c6_resolver_best_effort (package_name : String)
    (venv install freeze : PyOutcome Subproc) :
    (∀ v : Subproc, venv = .ok v → v.returncode ≠ 0 →
      (get_package_dependencies package_name venv install freeze).1 = .ok [])
    ∧ (∀ v i : Subproc, venv = .ok v → v.returncode = 0 → install = .ok i →
        i.returncode ≠ 0 →
        (get_package_dependencies package_name venv install freeze).1 = .ok [])
    ∧ (get_package_dependencies package_name venv install freeze).2 = true := by
  refine ⟨?_, ?_, rfl⟩
  · intro v hv hrc
    simp [get_package_dependencies, withTempDir, depsBody, hv, hrc]
  · intro v i hv hrc hi hirc
    simp [get_package_dependencies, withTempDir, depsBody, hv, hrc, hi, hirc]

/-! ## C1 — the frame property fails on sub-resource url lines -/

/-- C1 failing input: on `recipeA`, whose sub-resource block holds the url
`.../bb/bar-2.0.0.tar.gz`, the primary-URL/checksum passes rewrite that url
line to the primary tarball url (the line scanner's guard compares the
previous line for equality with the string `resource` instead of substring
membership, and the first global substitution also rewrites every
pythonhosted url).  Text outside the three targeted regions is therefore
not preserved. -/
theorem c1_resource_url_clobbered :
    pyIn "    url \"https://files.pythonhosted.org/packages/bb/bar-2.0.0.tar.gz\"" recipeA
      = true
    ∧ update_formula tbNone [] recipeA tarballA "NEWSHA" false = .updated mutatedA
    ∧ pyIn "bb/bar-2.0.0.tar.gz" mutatedA = false
    ∧ pyIn "  resource \"bar\" do\n  url \"https://files.pythonhosted.org/packages/cc/foo-1.1.0.tar.gz\"" mutatedA
      = true := by
  refine ⟨by decide, by decide, by decide, by decide⟩

/-! ## C3 — stale sub-resource blocks are not deleted -/

/-- C3 failing input: on `recipeA` (whose `bar` block is in the exact
canonical layout the deletion pattern expects), with regeneration requested
and the single resolved pin `idna 3.4`, the dependency pass fails to delete
the existing block — the earlier checksum pass re-indented its url line, so
the deletion pattern no longer matches — while the new sorted block is
inserted before `def install`.  The stale `bar` block survives in the
output. -/
theorem c3_stale_block_remains :
    pyIn "\n  resource \"bar\" do\n    url \"https://files.pythonhosted.org/packages/bb/bar-2.0.0.tar.gz\"\n    sha256 \"BARSHA\"\n  end" recipeA
      = true
    ∧ update_formula tbIdna [("idna", "3.4")] recipeA tarballA "NEWSHA" true
        = .updated mutatedA2
    ∧ pyIn "  resource \"bar\" do" mutatedA2 = true
    ∧ pyIn "  resource \"idna\" do\n    url \"https://files.pythonhosted.org/packages/xx/idna-3.4.tar.gz\"\n    sha256 \"IDNASHA\"\n  end\n\n  def install" mutatedA2
      = true := by
  refine ⟨by decide, by decide, by decide, by decide⟩

/-! ## C9 — the checksum pass substitutes at most one line -/

theorem shaStep_url (tU sha : String) (st : ScanState) (l : List Char)
    (h : (containsSub "url ".data l && !(st.prev == some "resource".data)) = true) :
    shaStep tU sha st l
      = ("  url \"".data ++ tU.data ++ ['"'], ⟨some l, true, st.inMain⟩, false) := by
  unfold shaStep
  rw [if_pos h]

theorem shaStep_sha (tU sha : String) (st : ScanState) (l : List Char)
    (h1 : (containsSub "url ".data l && !(st.prev == some "resource".data)) = false)
    (h2 : (st.urlFound && containsSub "sha256".data l && st.inMain) = true) :
    shaStep tU sha st l
      = ("  sha256 \"".data ++ sha.data ++ ['"'], ⟨some l, false, false⟩, true) := by
  unfold shaStep
  rw [if_neg (by simp [h1]), if_pos h2]

theorem shaStep_other (tU sha : String) (st : ScanState) (l : List Char)
    (h1 : (containsSub "url ".data l && !(st.prev == some "resource".data)) = false)
    (h2 : (st.urlFound && containsSub "sha256".data l && st.inMain) = false) :
    shaStep tU sha st l
      = (l, ⟨some l, st.urlFound,
          st.inMain && !(containsSub "resource ".data l)⟩, false) := by
  unfold shaStep
  rw [if_neg (by simp [h1]), if_neg (by simp [h2])]

theorem shaCount_of_not_inMain (tU sha : String) (st : ScanState)
    (h : st.inMain = false) : ∀ ls, shaCount tU sha st ls = 0 := by
  intro ls
  induction ls generalizing st with
  | nil => rfl
  | cons l ls ih =>
    unfold shaCount
    by_cases h1 : (containsSub "url ".data l && !(st.prev == some "resource".data)) = true
    · rw [shaStep_url tU sha st l h1]
      simpa using ih ⟨some l, true, st.inMain⟩ h
    · by_cases h2 : (st.urlFound && containsSub "sha256".data l && st.inMain) = true
      · rw [h] at h2; simp at h2
      · rw [shaStep_other tU sha st l (by simpa using h1) (by simpa using h2)]
        simpa using
          ih ⟨some l, st.urlFound, st.inMain && !(containsSub "resource ".data l)⟩
            (by rw [h]; rfl)

theorem shaCount_le_one (tU sha : String) (st : ScanState) :
    ∀ ls, shaCount tU sha st ls ≤ 1 := by
  intro ls
  induction ls generalizing st with
  | nil => exact Nat.zero_le 1
  | cons l ls ih =>
    unfold shaCount
    by_cases h1 : (containsSub "url ".data l && !(st.prev == some "resource".data)) = true
    · rw [shaStep_url tU sha st l h1]
      simpa using ih ⟨some l, true, st.inMain⟩
    · by_cases h2 : (st.urlFound && containsSub "sha256".data l && st.inMain) = true
      · rw [shaStep_sha tU sha st l (by simpa using h1) h2]
        have h0 := shaCount_of_not_inMain tU sha ⟨some l, false, false⟩ rfl ls
        simp [h0]
      · rw [shaStep_other tU sha st l (by simpa using h1) (by simpa using h2)]
        simpa using
          ih ⟨some l, st.urlFound, st.inMain && !(containsSub "resource ".data l)⟩

/-- C9 (amended): the scanner substitutes at most one checksum line per
file; after a substitution `in_main_section` is cleared so no later line is
substituted; and after processing any line that contains `resource ` but
does not itself contain `url ` (lines containing `url ` are consumed by the
url branch and leave the flag untouched), no checksum substitution happens
on any later line. -/
theorem c9_at_most_one_checksum (tU sha : String) (st : ScanState)
    (ls : List (List Char)) :
    shaCount tU sha st ls ≤ 1
    ∧ (st.inMain = false → shaCount tU sha st ls = 0)
    ∧ (∀ l post, containsSub "resource ".data l = true →
        containsSub "url ".data l = false →
        shaCount tU sha (shaStep tU sha st l).2.1 post = 0) := by
  refine ⟨shaCount_le_one tU sha st ls, fun h => shaCount_of_not_inMain tU sha st h ls, ?_⟩
  intro l post hres hurl
  apply shaCount_of_not_inMain
  by_cases h2 : (st.urlFound && containsSub "sha256".data l && st.inMain) = true
  · rw [shaStep_sha tU sha st l (by simp [hurl]) h2]
  · rw [shaStep_other tU sha st l (by simp [hurl]) (by simpa using h2)]
    simp [hres]

/-- Witness for C9 at a concrete state and line list. -/
theorem c9_at_most_one_checksum_witness :
    shaCount "t" "s" ⟨none, false, true⟩ [lineSha, lineSha] ≤ 1
    ∧ shaCount "t" "s"
        (shaStep "t" "s" ⟨none, true, true⟩ "  resource \"z\" do".data).2.1
        [lineSha] = 0 :=
  ⟨(c9_at_most_one_checksum "t" "s" ⟨none, false, true⟩ [lineSha, lineSha]).1,
   (c9_at_most_one_checksum "t" "s" ⟨none, true, true⟩ []).2.2
     "  resource \"z\" do".data [lineSha] (by decide) (by decide)⟩

/-- C9 counterexample: a line containing a resource declaration but also
`url ` is consumed by the url branch, leaving `in_main_section` set, so a
checksum on a *later* line is still substituted — the claim's
"once any line containing a resource declaration has been seen" trigger
does not hold for such lines. -/
theorem c9_counterexample :
    containsSub "resource \"dep\" do".data lineUrlRes = true
    ∧ shaCount "t" "NEW" ⟨none, false, true⟩ [lineUrlRes, lineSha] = 1
    ∧ shaScan "t" "NEW" ⟨none, false, true⟩ [lineUrlRes, lineSha]
        = ["  url \"t\"".data, "  sha256 \"NEW\"".data]
    ∧ (shaStep "t" "NEW" (shaStep "t" "NEW" ⟨none, false, true⟩ lineUrlRes).2.1
        lineSha).2.2 = true := by
  refine ⟨by decide, by decide, by decide, by decide⟩

/-- Witness for C6 at concrete oracles. -/
theorem c6_resolver_best_effort_witness :
    (get_package_dependencies "requests" (.ok ⟨1, ""⟩) .exn .exn).1 = .ok []
    ∧ (get_package_dependencies "requests" (.ok ⟨0, ""⟩) (.ok ⟨2, ""⟩) .exn).1 = .ok [] :=
  ⟨(c6_resolver_best_effort "requests" (.ok ⟨1, ""⟩) .exn .exn).1 ⟨1, ""⟩ rfl (by decide),
   (c6_resolver_best_effort "requests" (.ok ⟨0, ""⟩) (.ok ⟨2, ""⟩) .exn).2.1 ⟨0, ""⟩ ⟨2, ""⟩
     rfl rfl rfl (by decide)⟩

/-! ## C7 — when the Recipe Extractor skips, and its fallback -/

/-- C7: `extract_formula_info` returns `none` exactly when the class
declaration is missing, or the quoted url declaration is missing, or (url
present but not matching the canonical filename convention) the declared
version literal is missing; and on the fallback branch the recipe's own
lower-cased class name is used as the upstream package name together with
the declared version literal. -/
theorem c7_extract_none_iff (content : String) :
    (extract_formula_info content = none ↔
      searchClass content.data = none
      ∨ searchKeyQuoted "url".data content.data = none
      ∨ (∃ url, searchKeyQuoted "url".data content.data = some url
          ∧ pypiMatch url = none
          ∧ searchKeyQuoted "version".data content.data = none))
    ∧ (∀ cls url, searchClass content.data = some cls →
        searchKeyQuoted "url".data content.data = some url →
        pypiMatch url = none →
        ∀ v, searchKeyQuoted "version".data content.data = some v →
        extract_formula_info content
          = some ⟨String.mk (pyLower cls), String.mk v, String.mk (pyLower cls)⟩) := by
  constructor
  · unfold extract_formula_info
    cases hc : searchClass content.data with
    | none => simp
    | some cls =>
      cases hu : searchKeyQuoted "url".data content.data with
      | none => simp
      | some url =>
        cases hp : pypiMatch url with
        | some nv => simp [hp]
        | none =>
          cases hv : searchKeyQuoted "version".data content.data with
          | none => simp [hp]
          | some v => simp [hp]
  · intro cls url hcls hurl hp v hv
    simp only [extract_formula_info, hcls, hurl, hp, hv]

/-- Witness for C7 on a concrete fallback recipe. -/
theorem c7_extract_none_iff_witness :
    extract_formula_info recipeFallback = some ⟨"foo", "1.2rc1", "foo"⟩ := by
  rw [(c7_extract_none_iff recipeFallback).2 "Foo".data
    "https://example.com/foo.zip".data (by decide) (by decide) (by decide)
    "1.2rc1".data (by decide)]
  decide

/-! ## C8 — generated blocks and their ordering -/

/-- C8: a generated sub-resource block consists of exactly the pin's
normalized name (underscores to hyphens, lower-cased), the resolved
artifact url and its checksum; the blocks of any pin list are emitted in
case-insensitive lexicographic name order, and for the pins
`requests 2.31.0` and `idna 3.4` the order is idna then requests whichever
way the pins were resolved. -/
theorem c8_blocks_normalized_sorted :
    (∀ (tb : String → String → Option (String × String)) (n v url sha : String),
      tb n v = some (url, sha) →
      generate_resource_block tb n v
        = some ("  resource \""
            ++ String.mk ((pyLower n.data).map (fun c => if c = '_' then '-' else c))
            ++ "\" do\n    url \"" ++ url ++ "\"\n    sha256 \"" ++ sha ++ "\"\n  end"))
    ∧ (∀ deps : List (String × String), (sortDeps deps).Pairwise depLE)
    ∧ resourceBlocks tbTwo [("requests", "2.31.0"), ("idna", "3.4")]
        = ["  resource \"idna\" do\n    url \"https://files.pythonhosted.org/packages/xx/idna-3.4.tar.gz\"\n    sha256 \"IDNASHA\"\n  end",
           "  resource \"requests\" do\n    url \"https://files.pythonhosted.org/packages/rr/requests-2.31.0.tar.gz\"\n    sha256 \"RSHA\"\n  end"]
    ∧ resourceBlocks tbTwo [("idna", "3.4"), ("requests", "2.31.0")]
        = ["  resource \"idna\" do\n    url \"https://files.pythonhosted.org/packages/xx/idna-3.4.tar.gz\"\n    sha256 \"IDNASHA\"\n  end",
           "  resource \"requests\" do\n    url \"https://files.pythonhosted.org/packages/rr/requests-2.31.0.tar.gz\"\n    sha256 \"RSHA\"\n  end"] := by
  refine ⟨?_, ?_, by decide, by decide⟩
  · intro tb n v url sha h
    unfold generate_resource_block
    rw [h]
  · intro deps
    exact List.sorted_insertionSort depLE deps

/-! ## C5 — derivation of name/version from the canonical filename -/

theorem splitOnCh_ne_nil (sep : Char) (l : List Char) : splitOnCh sep l ≠ [] := by
  cases l with
  | nil => simp [splitOnCh]
  | cons c cs =>
    unfold splitOnCh
    by_cases h : c = sep
    · simp [h]
    · rw [if_neg h]
      cases hs : splitOnCh sep cs <;> simp

theorem mem_splitOnCh (sep : Char) (l : List Char) (c : Char) (hc : c ∈ l) :
    c = sep ∨ ∃ p ∈ splitOnCh sep l, c ∈ p := by
  induction l with
  | nil => cases hc
  | cons d ds ih =>
    unfold splitOnCh
    by_cases hd : d = sep
    · rw [if_pos hd]
      rcases List.mem_cons.mp hc with h | h
      · left; exact h.trans hd
      · rcases ih h with h1 | ⟨p, hp, hcp⟩
        · left; exact h1
        · right; exact ⟨p, List.mem_cons_of_mem _ hp, hcp⟩
    · rw [if_neg hd]
      rcases hs : splitOnCh sep ds with _ | ⟨g, gs⟩
      · exact absurd hs (splitOnCh_ne_nil sep ds)
      · rcases List.mem_cons.mp hc with h | h
        · right
          exact ⟨d :: g, List.mem_cons_self _ _, by rw [h]; exact List.mem_cons_self d g⟩
        · rcases ih h with h1 | ⟨p, hp, hcp⟩
          · left; exact h1
          · rw [hs] at hp
            rcases List.mem_cons.mp hp with hpg | hpgs
            · right
              refine ⟨d :: g, List.mem_cons_self _ _, ?_⟩
              rw [hpg] at hcp
              exact List.mem_cons_of_mem d hcp
            · right; exact ⟨p, List.mem_cons_of_mem _ hpgs, hcp⟩

theorem vpartsOK_parts (ps : List (List Char)) (h : vpartsOK ps = true) :
    ∀ p ∈ ps, (dig1 p || w1 p) = true := by
  intro p hp
  rcases ps with _ | ⟨p1, _ | ⟨p2, _ | ⟨p3, _ | ⟨p4, _ | ⟨p5, rest⟩⟩⟩⟩⟩
  · cases hp
  · exact absurd h Bool.noConfusion
  · simp only [vpartsOK, Bool.and_eq_true] at h
    simp only [List.mem_cons, List.not_mem_nil, or_false] at hp
    rcases hp with h1 | h1 <;> subst h1 <;> simp [h.1, h.2]
  · simp only [vpartsOK, Bool.and_eq_true] at h
    simp only [List.mem_cons, List.not_mem_nil, or_false] at hp
    rcases hp with h1 | h1 | h1 <;> subst h1 <;> simp [h.1.1, h.1.2, h.2]
  · simp only [vpartsOK, Bool.and_eq_true] at h
    simp only [List.mem_cons, List.not_mem_nil, or_false] at hp
    rcases hp with h1 | h1 | h1 | h1 <;> subst h1 <;>
      simp [h.1.1.1, h.1.1.2, h.1.2, h.2]
  · exact absurd h Bool.noConfusion

theorem versionFull_chars (s : List Char) (h : versionFull s = true) :
    ∀ c ∈ s, c = '.' ∨ (c.isDigit || pyIsW c) = true := by
  intro c hc
  rcases mem_splitOnCh '.' s c hc with h1 | ⟨p, hp, hcp⟩
  · left; exact h1
  · right
    have hpw := vpartsOK_parts _ h p hp
    rw [Bool.or_eq_true] at hpw
    rcases hpw with hd | hw
    · unfold dig1 at hd
      rw [Bool.and_eq_true] at hd
      have := List.all_eq_true.mp hd.2 c hcp
      simp [this]
    · unfold w1 at hw
      rw [Bool.and_eq_true] at hw
      have := List.all_eq_true.mp hw.2 c hcp
      simp [this]

theorem versionFull_of_slash (s : List Char) (hs : '/' ∈ s) : versionFull s = false := by
  cases hvf : versionFull s with
  | false => rfl
  | true =>
    rcases versionFull_chars s hvf '/' hs with h | h
    · exact absurd h (by decide)
    · exact absurd h (by decide)

theorem versionFull_no_slash (s : List Char) (h : versionFull s = true) : '/' ∉ s :=
  fun hs => Bool.noConfusion ((versionFull_of_slash s hs) ▸ h)

theorem versionFull_no_hyphen (s : List Char) (h : versionFull s = true) : '-' ∉ s := by
  intro hs
  rcases versionFull_chars s h '-' hs with h1 | h1
  · exact absurd h1 (by decide)
  · exact absurd h1 (by decide)

theorem takeWhile_append_all (p : Char → Bool) (l r : List Char)
    (hl : l.all p = true) : (l ++ r).takeWhile p = l ++ r.takeWhile p := by
  induction l with
  | nil => simp
  | cons a as ih =>
    simp only [List.all_cons, Bool.and_eq_true] at hl
    rw [List.cons_append, List.takeWhile_cons, if_pos hl.1, ih hl.2, List.cons_append]

theorem takeWhile_getElem? (p : Char → Bool) (l : List Char) (i : Nat)
    (hi : i < (l.takeWhile p).length) (c : Char) (hc : l[i]? = some c) :
    p c = true := by
  obtain ⟨t, ht⟩ : ∃ t, l.takeWhile p ++ t = l := List.takeWhile_prefix p
  rw [← ht, List.getElem?_append_left hi] at hc
  exact List.mem_takeWhile_imp (List.getElem?_mem hc)

theorem nameVerAux_none_of_slash (g2 : List Char → Bool)
    (hg2 : ∀ s, '/' ∈ s → g2 s = false) (cs : List Char) (hs : '/' ∈ cs) :
    ∀ K, K ≤ (cs.takeWhile isNameChar).length → nameVerAux g2 cs K = none := by
  intro K
  induction K with
  | zero => intro _; rfl
  | succ k ih =>
    intro hK
    have hfalse : ¬((cs[k + 1]? = some '-' && g2 (cs.drop (k + 2))) = true) := by
      intro hcond
      rw [Bool.and_eq_true, decide_eq_true_iff] at hcond
      obtain ⟨i, hi⟩ := List.mem_iff_getElem?.mp hs
      rcases lt_trichotomy i (k + 1) with hik | hik | hik
      · have hilt : i < (cs.takeWhile isNameChar).length := lt_of_lt_of_le hik hK
        exact absurd (takeWhile_getElem? isNameChar cs i hilt '/' hi) (by decide)
      · rw [hik, hcond.1] at hi
        exact absurd (Option.some.inj hi) (by decide)
      · obtain ⟨d, hd⟩ : ∃ d, i = (k + 2) + d := ⟨i - (k + 2), by omega⟩
        have : (cs.drop (k + 2))[d]? = some '/' := by
          rw [List.getElem?_drop, ← hd]; exact hi
        have hmem : '/' ∈ cs.drop (k + 2) := List.getElem?_mem this
        rw [hg2 _ hmem] at hcond
        exact Bool.noConfusion hcond.2
    unfold nameVerAux
    rw [if_neg hfalse]
    exact ih (Nat.le_of_succ_le hK)

theorem nameVerTry_none_of_slash (g2 : List Char → Bool)
    (hg2 : ∀ s, '/' ∈ s → g2 s = false) (cs : List Char) (hs : '/' ∈ cs) :
    nameVerTry g2 cs = none :=
  nameVerAux_none_of_slash g2 hg2 cs hs _ (le_refl _)

theorem nameVerAux_descend (g2 : List Char → Bool) (cs : List Char) (L : Nat)
    (hchar : ∀ j, L < j → cs[j]? ≠ some '-') :
    ∀ K, L ≤ K → nameVerAux g2 cs K = nameVerAux g2 cs L := by
  intro K
  induction K with
  | zero => intro h; rw [Nat.le_zero.mp h]
  | succ k ih =>
    intro hLK
    rcases Nat.eq_or_lt_of_le hLK with he | hlt
    · rw [he]
    · have hfalse : ¬((cs[k + 1]? = some '-' && g2 (cs.drop (k + 2))) = true) := by
        intro hcond
        rw [Bool.and_eq_true, decide_eq_true_iff] at hcond
        exact hchar (k + 1) hlt hcond.1
      have hstep : nameVerAux g2 cs (k + 1)
          = if (cs[k + 1]? = some '-' && g2 (cs.drop (k + 2))) = true then
              some (cs.take (k + 1), cs.drop (k + 2))
            else nameVerAux g2 cs k := rfl
      rw [hstep, if_neg hfalse]
      exact ih (Nat.le_of_lt_succ hlt)

theorem nameVerAux_exact (g2 : List Char → Bool) (name ver : List Char)
    (hname : name ≠ []) (hv : g2 ver = true) :
    nameVerAux g2 (name ++ '-' :: ver) name.length = some (name, ver) := by
  obtain ⟨m, hm⟩ : ∃ m, name.length = m + 1 := by
    cases name with
    | nil => exact absurd rfl hname
    | cons a as => exact ⟨as.length, rfl⟩
  have hhy : (name ++ '-' :: ver)[m + 1]? = some '-' := by
    rw [← hm, List.getElem?_append_right (le_refl _)]
    simp
  have htk : (name ++ '-' :: ver).take (m + 1) = name := by
    rw [← hm]; exact List.take_left name ('-' :: ver)
  have hdr : (name ++ '-' :: ver).drop (m + 2) = ver := by
    rw [List.append_cons]
    exact List.drop_left' (by simp [hm])
  rw [hm]
  unfold nameVerAux
  rw [if_pos ?_, htk, hdr]
  rw [Bool.and_eq_true, decide_eq_true_iff]
  exact ⟨hhy, by rw [hdr]; exact hv⟩

theorem nameVerTry_main (g2 : List Char → Bool) (name ver : List Char)
    (hname : name ≠ []) (hA : name.all isNameChar = true)
    (hv : g2 ver = true) (hhy : '-' ∉ ver) :
    nameVerTry g2 (name ++ '-' :: ver) = some (name, ver) := by
  unfold nameVerTry
  have hchar : ∀ j, name.length < j → (name ++ '-' :: ver)[j]? ≠ some '-' := by
    intro j hj hcontra
    rw [List.getElem?_append_right (le_of_lt hj)] at hcontra
    obtain ⟨d, hd⟩ : ∃ d, j - name.length = d + 1 := ⟨j - name.length - 1, by omega⟩
    rw [hd, List.getElem?_cons_succ] at hcontra
    exact hhy (List.getElem?_mem hcontra)
  have hlen : name.length ≤ ((name ++ '-' :: ver).takeWhile isNameChar).length := by
    rw [takeWhile_append_all isNameChar name ('-' :: ver) hA, List.length_append]
    exact Nat.le_add_right _ _
  rw [nameVerAux_descend g2 _ name.length hchar _ hlen]
  exact nameVerAux_exact g2 name ver hname hv

theorem nameVerScan_main (g2 : List Char → Bool)
    (hg2 : ∀ s, '/' ∈ s → g2 s = false) (tail : List Char)
    (res : List Char × List Char) (h : nameVerTry g2 tail = some res) :
    ∀ p : List Char, nameVerScan g2 (p ++ '/' :: tail) = some res := by
  intro p
  induction p with
  | nil =>
    show nameVerScan g2 ('/' :: tail) = some res
    unfold nameVerScan
    rw [if_pos rfl, h]
  | cons c cp ih =>
    show nameVerScan g2 (c :: (cp ++ '/' :: tail)) = some res
    unfold nameVerScan
    by_cases hc : c = '/'
    · rw [if_pos hc, nameVerTry_none_of_slash g2 hg2 _ (by simp)]
      exact ih
    · rw [if_neg hc]
      exact ih

/-- The bridge: on a url of the canonical shape
`<prefix>/<name>-<ver>.tar.gz` — `name` nonempty over `[a-zA-Z0-9_-]` and
`ver` matching the version group in full — the embedded
`re.search` returns exactly `(name, ver)`, whatever the prefix is. -/
theorem pypiMatch_canonical (p name ver : List Char) (hname : name ≠ [])
    (hA : name.all isNameChar = true) (hv : versionFull ver = true) :
    pypiMatch ((p ++ '/' :: (name ++ '-' :: ver)) ++ ".tar.gz".data)
      = some (name, ver) := by
  have hsuf : ".tar.gz".data.isSuffixOf
      ((p ++ '/' :: (name ++ '-' :: ver)) ++ ".tar.gz".data) = true :=
    List.isSuffixOf_iff_suffix.mpr (List.suffix_append _ _)
  have h7 : (".tar.gz".data).length = 7 := rfl
  have hlen : ((p ++ '/' :: (name ++ '-' :: ver)) ++ ".tar.gz".data).length - 7
      = (p ++ '/' :: (name ++ '-' :: ver)).length := by
    rw [List.length_append, h7, Nat.add_sub_cancel]
  have htake : ((p ++ '/' :: (name ++ '-' :: ver)) ++ ".tar.gz".data).take
        (((p ++ '/' :: (name ++ '-' :: ver)) ++ ".tar.gz".data).length - 7)
      = p ++ '/' :: (name ++ '-' :: ver) := by
    rw [hlen]; exact List.take_left _ _
  unfold pypiMatch
  rw [if_pos hsuf, htake]
  exact nameVerScan_main versionFull versionFull_of_slash (name ++ '-' :: ver)
    (name, ver)
    (nameVerTry_main versionFull name ver hname hA hv (versionFull_no_hyphen ver hv)) p

/-- C5 (amended): whenever the recipe's quoted url ends in a filename of
the canonical form `<name>-<version>.tar.gz` — where `<version>` matches
the code's pattern (two mandatory numeric components, an optional third
numeric component, an optional fourth alphanumeric component; *not* "one
to four" arbitrary components) — the extractor derives the upstream
package name (normalized) and version from that filename. -/
theorem c5_url_derivation (content : String) (cls url p name ver : List Char)
    (hcls : searchClass content.data = some cls)
    (hurl : searchKeyQuoted "url".data content.data = some url)
    (hu : url = (p ++ '/' :: (name ++ '-' :: ver)) ++ ".tar.gz".data)
    (hname : name ≠ []) (hA : name.all isNameChar = true)
    (hv : versionFull ver = true) :
    extract_formula_info content
      = some ⟨String.mk (pyLower cls), String.mk ver, normalizePypi name⟩ := by
  have hm : pypiMatch url = some (name, ver) := by
    rw [hu]; exact pypiMatch_canonical p name ver hname hA hv
  simp only [extract_formula_info, hcls, hurl, hm]

/-- Witness for C5 on the spec's own example url. -/
theorem c5_url_derivation_witness :
    extract_formula_info recipeRequests = some ⟨"requests", "2.31.0", "requests"⟩ := by
  rw [c5_url_derivation recipeRequests "Requests".data
    "https://files.pythonhosted.org/packages/a1/b2/requests-2.31.0.tar.gz".data
    "https://files.pythonhosted.org/packages/a1/b2".data
    "requests".data "2.31.0".data
    (by decide) (by decide) (by decide) (by decide) (by decide) (by decide)]
  decide

/-- C5 counterexample: a url filename with a one-component version
(`requests-2.tar.gz`), inside the claim's "one to four dot-separated
components", is *not* derived from the filename: the pattern demands at
least two numeric components, so the extractor falls back to the declared
class name `requestz` and the version literal `9.9`. -/
theorem c5_counterexample :
    extract_formula_info recipeOneComp = some ⟨"requestz", "9.9", "requestz"⟩
    ∧ ("requestz" : String) ≠ "requests" := by
  exact ⟨by decide, by decide⟩

/-- Witness for C8 on a concrete pin. -/
theorem c8_blocks_normalized_sorted_witness :
    generate_resource_block tbIdna "idna" "3.4"
      = some ("  resource \""
          ++ String.mk ((pyLower "idna".data).map (fun c => if c = '_' then '-' else c))
          ++ "\" do\n    url \"https://files.pythonhosted.org/packages/xx/idna-3.4.tar.gz\"\n    sha256 \"IDNASHA\"\n  end") :=
  c8_blocks_normalized_sorted.1 tbIdna "idna" "3.4"
    "https://files.pythonhosted.org/packages/xx/idna-3.4.tar.gz" "IDNASHA" (by decide)

end HomebrewTap
